import Mathlib

/-!
Verification of the whereish location-sharing backend.

The permission store, contact graph and encrypted-location publishing are
embedded from src/server/app.py as pure functions over an explicit database
state (lists standing for the SQLite tables, with the uniqueness constraints
of the schema used where noted). Timestamp columns (created_at, accepted_at,
updated_at of the permissions table) are not modelled: no claim below
mentions them. The plaintext disclosure filter and the contact-location
query routes are present in the repository only through their integration
tests; those parts are modelled from the specification and are marked as
such in their doc comments.
-/

namespace Whereish

/-- From src/server/app.py PERMISSION_LEVELS: the fixed nine-level
enumeration, ordered from least specific (index 0) to most specific. -/
def PERMISSION_LEVELS : List String :=
  ["planet", "continent", "country", "state", "county",
   "city", "neighborhood", "street", "address"]

/-- From src/server/app.py DEFAULT_PERMISSION_LEVEL. -/
def DEFAULT_PERMISSION_LEVEL : String := "planet"

/-- From src/server/app.py LOCATION_EXPIRY_MINUTES. -/
def LOCATION_EXPIRY_MINUTES : Nat := 30

/-- Row of the users table (id, email, name; auth columns not modelled). -/
structure UserRow where
  id : String
  email : String
  name : String
  deriving Repr, DecidableEq

/-- Row of the contacts table: directional edge with a status string
("pending" or "accepted"); id is the AUTOINCREMENT primary key. -/
structure ContactRow where
  id : Nat
  requester_id : String
  recipient_id : String
  status : String
  deriving Repr, DecidableEq

/-- Row of the permissions table, PRIMARY KEY (granter_id, grantee_id). -/
structure PermissionRow where
  granter_id : String
  grantee_id : String
  permission_level : String
  deriving Repr, DecidableEq

/-- Row of the encrypted_locations table, UNIQUE(from_user_id, to_user_id). -/
structure EncryptedLocationRow where
  from_user_id : String
  to_user_id : String
  encrypted_blob : String
  deriving Repr, DecidableEq

/-- The database state: the tables of src/server/app.py init_db that the
claims touch. nextContactId models the AUTOINCREMENT counter of the
contacts table. -/
structure DB where
  users : List UserRow
  contacts : List ContactRow
  permissions : List PermissionRow
  encrypted_locations : List EncryptedLocationRow
  nextContactId : Nat
  deriving Repr, DecidableEq

/-- The freshly initialised database: all tables empty. -/
def emptyDB : DB := ⟨[], [], [], [], 1⟩

/-- The error taxonomy of the route layer, by HTTP status and message. -/
inductive ApiError where
  | unauthorized (msg : String)
  | forbidden (msg : String)
  | notFound (msg : String)
  | conflict (msg : String)
  | invalidOperation (msg : String)
  | invalidArgument (msg : String)
  deriving Repr, DecidableEq

/-- HTTP status code of each error, matching the jsonify calls in app.py. -/
def ApiError.status : ApiError → Nat
  | .unauthorized _ => 401
  | .forbidden _ => 403
  | .notFound _ => 404
  | .conflict _ => 409
  | .invalidOperation _ => 400
  | .invalidArgument _ => 400

/-- Python str.lower on the ASCII range, as applied to emails (an
executable model of the .lower() normalisation; the library String.toLower
does not reduce in the kernel). -/
def asciiLower (s : String) : String :=
  String.mk (s.data.map Char.toLower)

/-- Python str.strip: removes surrounding spaces. -/
def pyStrip (s : String) : String :=
  String.mk (((s.data.dropWhile fun c => c == ' ').reverse.dropWhile fun c => c == ' ').reverse)

/-- The email normalisation applied at the route boundary:
data.get(...).strip().lower(). -/
def normalizeEmail (s : String) : String :=
  asciiLower (pyStrip s)

/-- From app.py get_user_by_email: SELECT by lowercased email. -/
def get_user_by_email (db : DB) (email : String) : Option UserRow :=
  db.users.find? (fun u => u.email == asciiLower email)

/-- From app.py get_permission_level: the stored level for the ordered
pair, or DEFAULT_PERMISSION_LEVEL when no row exists. Total: never fails. -/
def get_permission_level (db : DB) (granter_id grantee_id : String) : String :=
  match db.permissions.find?
      (fun r => r.granter_id == granter_id && r.grantee_id == grantee_id) with
  | some row => row.permission_level
  | none => DEFAULT_PERMISSION_LEVEL

/-- The INSERT ... ON CONFLICT(granter_id, grantee_id) DO UPDATE of
set_permission_level: since (granter_id, grantee_id) is the primary key,
the upsert replaces the row for that key, modelled as remove-then-append. -/
def permissionsUpsert (rows : List PermissionRow) (granter grantee level : String) :
    List PermissionRow :=
  rows.filter (fun r => !(r.granter_id == granter && r.grantee_id == grantee))
    ++ [⟨granter, grantee, level⟩]

/-- From app.py set_permission_level: rejects a level outside
PERMISSION_LEVELS (the ValueError), otherwise upserts the row. -/
def set_permission_level (db : DB) (granter_id grantee_id level : String) :
    Except String DB :=
  if PERMISSION_LEVELS.contains level then
    .ok { db with
          permissions := permissionsUpsert db.permissions granter_id grantee_id level }
  else
    .error "Invalid permission level"

/-- From app.py get_user_contacts: the accepted edges touching the user,
each mapped to the opposite endpoint. -/
def get_user_contacts (db : DB) (user_id : String) : List String :=
  (db.contacts.filter (fun c =>
      (c.requester_id == user_id || c.recipient_id == user_id)
        && c.status == "accepted")).map
    (fun c => if c.requester_id == user_id then c.recipient_id else c.requester_id)

/-- The symmetric contact predicate used as the access gate by the routes:
membership of b in the contact list of a. -/
def isContact (db : DB) (a b : String) : Bool :=
  (get_user_contacts db a).contains b

/-- From the register route of app.py: normalises the email, requires an
at-sign, rejects an already-registered email with 409, then inserts the
user. The password check and hash are auth plumbing and are not modelled;
the randomly generated id is taken as a parameter. -/
def register_user (db : DB) (user_id emailInput name : String) : Except ApiError DB :=
  let email := normalizeEmail emailInput
  if !(email.contains '@') then
    .error (.invalidArgument "Valid email is required")
  else
    match get_user_by_email db email with
    | some _ => .error (.conflict "Email already registered")
    | none => .ok { db with users := db.users ++ [⟨user_id, email, name⟩] }

/-- From app.py send_contact_request: resolves the (normalised) email,
404 when absent, 400 when the target is the caller, 409 when a row already
links the pair in either direction with status accepted or pending,
otherwise inserts a fresh pending edge caller to target. -/
def send_contact_request (db : DB) (user_id emailInput : String) : Except ApiError DB :=
  let email := normalizeEmail emailInput
  match get_user_by_email db email with
  | none => .error (.notFound "User not found")
  | some target =>
    if target.id == user_id then
      .error (.invalidOperation "Cannot add yourself as a contact")
    else
      match db.contacts.find? (fun c =>
          (c.requester_id == user_id && c.recipient_id == target.id)
            || (c.requester_id == target.id && c.recipient_id == user_id)) with
      | some existing =>
        if existing.status == "accepted" then
          .error (.conflict "Already contacts")
        else if existing.status == "pending" then
          .error (.conflict "Request already pending")
        else
          .ok { db with
                contacts := db.contacts
                  ++ [⟨db.nextContactId, user_id, target.id, "pending"⟩],
                nextContactId := db.nextContactId + 1 }
      | none =>
        .ok { db with
              contacts := db.contacts
                ++ [⟨db.nextContactId, user_id, target.id, "pending"⟩],
              nextContactId := db.nextContactId + 1 }

/-- From app.py accept_contact_request: 404 unless a pending edge with this
id has the caller as recipient; then UPDATE contacts SET status accepted
WHERE id matches. -/
def accept_contact_request (db : DB) (user_id : String) (request_id : Nat) :
    Except ApiError DB :=
  match db.contacts.find? (fun c =>
      c.id == request_id && c.recipient_id == user_id && c.status == "pending") with
  | none => .error (.notFound "Request not found")
  | some _ =>
    .ok { db with
          contacts := db.contacts.map (fun c =>
            if c.id == request_id then { c with status := "accepted" } else c) }

/-- From app.py decline_contact_request: 404 unless a pending edge with this
id has the caller as recipient; then DELETE the edge by id. -/
def decline_contact_request (db : DB) (user_id : String) (request_id : Nat) :
    Except ApiError DB :=
  match db.contacts.find? (fun c =>
      c.id == request_id && c.recipient_id == user_id && c.status == "pending") with
  | none => .error (.notFound "Request not found")
  | some _ =>
    .ok { db with contacts := db.contacts.filter (fun c => !(c.id == request_id)) }

/-- From app.py cancel_contact_request: 404 unless a pending edge with this
id has the caller as requester; then DELETE the edge by id. -/
def cancel_contact_request (db : DB) (user_id : String) (request_id : Nat) :
    Except ApiError DB :=
  match db.contacts.find? (fun c =>
      c.id == request_id && c.requester_id == user_id && c.status == "pending") with
  | none => .error (.notFound "Request not found")
  | some _ =>
    .ok { db with contacts := db.contacts.filter (fun c => !(c.id == request_id)) }

/-- The DELETE predicate of app.py remove_contact: the accepted edge
between the caller and the contact, in either direction. -/
def removeEdgePred (user_id contact_id : String) (c : ContactRow) : Bool :=
  ((c.requester_id == user_id && c.recipient_id == contact_id)
    || (c.requester_id == contact_id && c.recipient_id == user_id))
    && c.status == "accepted"

/-- From app.py remove_contact: deletes the accepted edge between the pair;
404 when the delete touched no row (rowcount 0); then deletes both directed
permission rows between the pair. -/
def remove_contact (db : DB) (user_id contact_id : String) : Except ApiError DB :=
  let remaining := db.contacts.filter (fun c => !(removeEdgePred user_id contact_id c))
  if remaining.length == db.contacts.length then
    .error (.notFound "Contact not found")
  else
    .ok { db with
          contacts := remaining,
          permissions := db.permissions.filter (fun p =>
            !((p.granter_id == user_id && p.grantee_id == contact_id)
              || (p.granter_id == contact_id && p.grantee_id == user_id))) }

/-- From app.py update_contact_permission (PUT permission route): 403 when
the target is not in the caller contact list, 400 when the level is not one
of the nine, otherwise set_permission_level. -/
def update_contact_permission (db : DB) (user_id contact_id level : String) :
    Except ApiError DB :=
  if !((get_user_contacts db user_id).contains contact_id) then
    .error (.forbidden "Not a contact")
  else if !(PERMISSION_LEVELS.contains level) then
    .error (.invalidArgument "Invalid level")
  else
    match set_permission_level db user_id contact_id level with
    | .ok db2 => .ok db2
    | .error m => .error (.invalidArgument m)

/-- One entry of the locations array posted to the encrypted-location
route; contactId and blob may each be absent. The blob is kept as its JSON
rendering; the empty string stands for the Python-falsy blobs. -/
structure EncLocEntry where
  contactId : Option String
  blob : Option String
  deriving Repr, DecidableEq

/-- The UNIQUE(from_user_id, to_user_id) upsert of the encrypted_locations
table: replaces the row for the key, modelled as remove-then-append. -/
def encryptedUpsert (rows : List EncryptedLocationRow) (fromUser toUser blob : String) :
    List EncryptedLocationRow :=
  rows.filter (fun r => !(r.from_user_id == fromUser && r.to_user_id == toUser))
    ++ [⟨fromUser, toUser, blob⟩]

/-- The loop body of app.py publish_encrypted_locations: skip entries with
a missing or Python-falsy contactId or blob, skip recipients outside the
contact list, otherwise upsert the blob. The code recomputes
get_user_contacts on every iteration, but the loop never writes the
contacts table, so the list is constant and is passed in once. -/
def publishEncStep (user_id : String) (contact_ids : List String)
    (rows : List EncryptedLocationRow) (loc : EncLocEntry) :
    List EncryptedLocationRow :=
  match loc.contactId, loc.blob with
  | some contact_id, some blob =>
    if contact_id.isEmpty || blob.isEmpty then rows
    else if contact_ids.contains contact_id then
      encryptedUpsert rows user_id contact_id blob
    else rows
  | _, _ => rows

/-- The response of the encrypted-location route: always success, with
count the number of submitted entries. -/
structure PublishEncResult where
  success : Bool
  count : Nat
  deriving Repr, DecidableEq

/-- From app.py publish_encrypted_locations: folds the loop body over the
submitted entries and answers success with the raw submission count. -/
def publish_encrypted_locations (db : DB) (user_id : String)
    (locations : List EncLocEntry) : DB × PublishEncResult :=
  let rows := locations.foldl
    (publishEncStep user_id (get_user_contacts db user_id)) db.encrypted_locations
  ({ db with encrypted_locations := rows }, ⟨true, locations.length⟩)

/-- Position of a string in a list of level names: some index of the first
occurrence, none when absent. -/
def indexInLevels (level : String) : List String → Option Nat
  | [] => none
  | l :: ls => if l == level then some 0 else (indexInLevels level ls).map (· + 1)

/-- Index of a level in the fixed nine-level enumeration (spec step 1 of
the Disclosure Filter: allowedIndex = indexOf(level)); doubles as the
key-to-level table of step 2, which identity-maps the nine canonical keys. -/
def levelIndex (level : String) : Option Nat :=
  indexInLevels level PERMISSION_LEVELS

/-- allowedIndex for a granted level; granted levels are always one of the
nine, for which this is exact. -/
def allowedIndexOf (level : String) : Nat :=
  (levelIndex level).getD 0

/-- Modelled from the spec: the named-location visibility modes of section
3 (private, all, selected set of contact ids); the plaintext location
store holding them is absent from src, only its integration tests remain. -/
inductive NamedVisibility where
  | privateVis
  | allVis
  | selected (ids : List String)
  deriving Repr, DecidableEq

/-- Modelled from the spec: a stored namedLocation, either the legacy bare
string form or a label with its visibility wrapper. -/
inductive StoredNamedLocation where
  | legacy (label : String)
  | wrapped (label : String) (visibleTo : NamedVisibility)
  deriving Repr, DecidableEq

/-- Modelled from the spec: the raw location record of section 3
(hierarchy, optional namedLocation, optional client timestamp, server
updatedAt in minutes); its store is absent from src. -/
structure LocationRecord where
  hierarchy : List (String × String)
  namedLocation : Option StoredNamedLocation
  timestamp : Option String
  updatedAt : Nat
  deriving Repr, DecidableEq

/-- Modelled from the spec: the filtered view produced by the Disclosure
Filter (section 4.4), whose implementation is absent from src. -/
structure FilteredView where
  hierarchy : List (String × String)
  namedLocation : Option String
  timestamp : Option String
  deriving Repr, DecidableEq

/-- Modelled from the spec, section 4.4 step 2: keep a hierarchy key iff
its level index is at most allowedIndex; keys outside the table are
dropped silently (the strict rule, the one the integration tests pin:
test_planet_shows_nothing expects an empty hierarchy at planet). -/
def filterHierarchyKeys (hierarchy : List (String × String)) (allowedIndex : Nat) :
    List (String × String) :=
  hierarchy.filter (fun kv =>
    match levelIndex kv.fst with
    | some i => decide (i ≤ allowedIndex)
    | none => false)

/-- Modelled from the spec, section 4.4 step 3: named-location disclosure,
a function of the visibility mode and the viewer identity only. Legacy
bare strings are treated as private. -/
def filterNamedLocation (stored : Option StoredNamedLocation)
    (viewer_id owner_id : String) (viewerIsContact : Bool) : Option String :=
  match stored with
  | none => none
  | some (.legacy label) =>
    if viewer_id == owner_id then some label else none
  | some (.wrapped label .privateVis) =>
    if viewer_id == owner_id then some label else none
  | some (.wrapped label .allVis) =>
    if viewerIsContact then some label else none
  | some (.wrapped label (.selected ids)) =>
    if ids.contains viewer_id then some label else none

/-- Modelled from the spec, section 4.4: the Disclosure Filter, absent from
src; combines the hierarchy truncation with the named-location rule and
passes the client timestamp through. -/
def applyDisclosureFilter (raw : LocationRecord) (level : String)
    (viewer_id owner_id : String) (viewerIsContact : Bool) : FilteredView :=
  { hierarchy := filterHierarchyKeys raw.hierarchy (allowedIndexOf level),
    namedLocation := filterNamedLocation raw.namedLocation viewer_id owner_id viewerIsContact,
    timestamp := raw.timestamp }

/-- Modelled from the spec, section 4.5: stale when the age of the record
exceeds the fixed threshold (times in minutes). -/
def isStale (now updatedAt : Nat) : Bool :=
  decide (LOCATION_EXPIRY_MINUTES < now - updatedAt)

/-- The answer of the contact-location query: the filtered view and its
staleness when a record exists, plus the permission level used. -/
structure ContactLocationResult where
  location : Option FilteredView
  stale : Option Bool
  permissionLevel : String
  deriving Repr, DecidableEq

/-- Modelled from the spec, section 4.6: the getContactLocation
orchestrator, whose route is absent from src. Forbidden unless the contact
gate holds; then the level the owner granted the viewer is fetched, the raw
record (from the spec-modelled location store, a list keyed by owner)
is filtered, staleness computed. -/
def getContactLocation (db : DB) (locStore : List (String × LocationRecord))
    (now : Nat) (viewer_id owner_id : String) :
    Except ApiError ContactLocationResult :=
  if !(isContact db viewer_id owner_id) then
    .error (.forbidden "Not a contact")
  else
    let level := get_permission_level db owner_id viewer_id
    match (locStore.find? (fun p => p.fst == owner_id)).map Prod.snd with
    | none => .ok ⟨none, none, level⟩
    | some raw =>
      .ok ⟨some (applyDisclosureFilter raw level viewer_id owner_id true),
           some (isStale now raw.updatedAt), level⟩

/-- One authenticated API call of the embedded routes, for reasoning about
operation histories. -/
inductive Op where
  | register (user_id email name : String)
  | requestContact (user_id email : String)
  | acceptRequest (user_id : String) (request_id : Nat)
  | declineRequest (user_id : String) (request_id : Nat)
  | cancelRequest (user_id : String) (request_id : Nat)
  | removeContact (user_id contact_id : String)
  | setLevel (user_id contact_id level : String)
  | publishEncrypted (user_id : String) (locations : List EncLocEntry)
  deriving Repr, DecidableEq

/-- A failed call leaves the database unchanged (every handler above only
returns a new state on success). -/
def exceptToDB (db : DB) : Except ApiError DB → DB
  | .ok db2 => db2
  | .error _ => db

/-- Applies one call to the state, keeping the state on failure. -/
def applyOp (db : DB) : Op → DB
  | .register u e n => exceptToDB db (register_user db u e n)
  | .requestContact u e => exceptToDB db (send_contact_request db u e)
  | .acceptRequest u i => exceptToDB db (accept_contact_request db u i)
  | .declineRequest u i => exceptToDB db (decline_contact_request db u i)
  | .cancelRequest u i => exceptToDB db (cancel_contact_request db u i)
  | .removeContact u c => exceptToDB db (remove_contact db u c)
  | .setLevel u c l => exceptToDB db (update_contact_permission db u c l)
  | .publishEncrypted u locs => (publish_encrypted_locations db u locs).fst

/-- Runs a history of calls from a starting state. -/
def runOps (db : DB) (ops : List Op) : DB :=
  ops.foldl applyOp db

/-- True when a call succeeded (returned ok). -/
def isOkB (r : Except ApiError DB) : Bool :=
  match r with
  | .ok _ => true
  | .error _ => false

/-- Whether this single call is a setLevel for the ordered pair (x, y) that
succeeds on the given state. -/
def successfulSetLevelFor (x y : String) (db : DB) : Op → Bool
  | .setLevel u c l => u == x && c == y && isOkB (update_contact_permission db u c l)
  | _ => false

/-- Whether a history, run from the given state, contains a setLevel for
the ordered pair (x, y) that succeeds at its point in the history. -/
def anySuccessfulSetLevel (x y : String) (db : DB) : List Op → Bool
  | [] => false
  | op :: rest =>
    successfulSetLevelFor x y db op || anySuccessfulSetLevel x y (applyOp db op) rest

/-- Whether an accepted edge links the pair, in either direction: the
existence test behind the 404 of remove_contact. -/
def hasAcceptedEdge (db : DB) (a b : String) : Bool :=
  db.contacts.any (removeEdgePred a b)

/-- The relationship row linking the pair in either direction, as queried
by send_contact_request. -/
def relationshipBetween (db : DB) (a b : String) : Option ContactRow :=
  db.contacts.find? (fun c =>
    (c.requester_id == a && c.recipient_id == b)
      || (c.requester_id == b && c.recipient_id == a))

/-- The key predicate of the permissions table for an ordered pair. -/
def permKeyPred (x y : String) (r : PermissionRow) : Bool :=
  r.granter_id == x && r.grantee_id == y

/-- No stored grant for the ordered pair (x, y). -/
def permKeyAbsent (db : DB) (x y : String) : Bool :=
  !(db.permissions.any (permKeyPred x y))

/-- The stored encrypted-location rows from one user to another. -/
def encRowsFor (db : DB) (fromUser toUser : String) : List EncryptedLocationRow :=
  db.encrypted_locations.filter (fun r =>
    r.from_user_id == fromUser && r.to_user_id == toUser)

/-- Whether a submitted entry validly targets the recipient c: contactId
equal to c and both contactId and blob present and truthy. -/
def entryTargets (c : String) (e : EncLocEntry) : Bool :=
  match e.contactId, e.blob with
  | some cid, some b => cid == c && !cid.isEmpty && !b.isEmpty
  | _, _ => false

/-- Concrete user for witnesses. -/
def aliceU : UserRow := ⟨"ua", "alice@test.com", "Alice"⟩

/-- Concrete user for witnesses. -/
def bobU : UserRow := ⟨"ub", "bob@test.com", "Bob"⟩

/-- Witness state: alice and bob registered and accepted contacts, with a
prior street grant from alice to bob. -/
def dbContacts : DB :=
  ⟨[aliceU, bobU], [⟨1, "ua", "ub", "accepted"⟩], [⟨"ua", "ub", "street"⟩], [], 2⟩

/-- Witness state: alice and bob registered, not contacts, with a leftover
grant from alice to bob (as after a removed relationship). -/
def dbStrangers : DB :=
  ⟨[aliceU, bobU], [], [⟨"ua", "ub", "address"⟩], [], 1⟩

/-- Witness state for the request-accept-set trace: both users registered,
no contacts yet. -/
def dbPair : DB := { emptyDB with users := [aliceU, bobU] }

/-- State after alice requests bob (witness trace). -/
def dbPair1 : DB := exceptToDB dbPair (send_contact_request dbPair "ua" "bob@test.com")

/-- State after bob accepts the request (witness trace). -/
def dbPair2 : DB := exceptToDB dbPair1 (accept_contact_request dbPair1 "ub" dbPair.nextContactId)

/-- State after alice grants bob city (witness trace). -/
def dbPair3 : DB := exceptToDB dbPair2 (update_contact_permission dbPair2 "ua" "ub" "city")

/-- Witness history: registration, contact formation, and a grant from
alice to bob; it contains no grant from bob to alice. -/
def traceOps : List Op :=
  [.register "ua" "alice@test.com" "Alice",
   .register "ub" "bob@test.com" "Bob",
   .requestContact "ua" "bob@test.com",
   .acceptRequest "ub" 1,
   .setLevel "ua" "ub" "city"]

/-- Witness entries for encrypted publishing: one valid, one to a
non-contact, one without contactId, one without blob. -/
def encLocsW : List EncLocEntry :=
  [⟨some "ub", some "blob1"⟩, ⟨some "zz", some "blob2"⟩,
   ⟨none, some "x"⟩, ⟨some "ub", none⟩]

/-- Raw record whose hierarchy holds the literal planet key. -/
def planetKeyRecord : LocationRecord := ⟨[("planet", "Earth")], none, none, 0⟩

/-- Raw record with a named location visible to all contacts. -/
def rawAllVis : LocationRecord :=
  ⟨[("continent", "North America"), ("city", "Seattle")],
   some (.wrapped "Soccer Field" .allVis), some "t0", 0⟩

/-- Raw record with a private named location. -/
def rawPrivate : LocationRecord :=
  ⟨[("city", "Seattle"), ("address", "123 Broadway E")],
   some (.wrapped "Cancer Treatment Facility" .privateVis), none, 0⟩

/-- Raw record with a legacy bare-string named location. -/
def rawLegacy : LocationRecord :=
  ⟨[("city", "Seattle")], some (.legacy "Legacy Place"), none, 0⟩

/-- Searching an append finds in the right part when the left part has no
match. -/
theorem find?_append_of_none {α : Type} (l₁ l₂ : List α) (p : α → Bool)
    (h : l₁.find? p = none) : (l₁ ++ l₂).find? p = l₂.find? p := by
  induction l₁ with
  | nil => rfl
  | cons a as ih =>
    cases hp : p a with
    | true => rw [List.find?_cons_of_pos _ hp] at h; cases h
    | false =>
      have hp2 : ¬ p a = true := by simp [hp]
      rw [List.find?_cons_of_neg _ hp2] at h
      rw [List.cons_append, List.find?_cons_of_neg _ hp2]
      exact ih h

/-- Searching an append keeps a match found in the left part. -/
theorem find?_append_of_some {α : Type} (l₁ l₂ : List α) (p : α → Bool) (a : α)
    (h : l₁.find? p = some a) : (l₁ ++ l₂).find? p = some a := by
  induction l₁ with
  | nil => cases h
  | cons b bs ih =>
    cases hp : p b with
    | true =>
      rw [List.find?_cons_of_pos _ hp] at h
      rw [List.cons_append, List.find?_cons_of_pos _ hp]
      exact h
    | false =>
      have hp2 : ¬ p b = true := by simp [hp]
      rw [List.find?_cons_of_neg _ hp2] at h
      rw [List.cons_append, List.find?_cons_of_neg _ hp2]
      exact ih h

/-- Filtering by a weaker predicate does not change the first match. -/
theorem find?_filter_of_imp {α : Type} (l : List α) (p q : α → Bool)
    (h : ∀ a, p a = true → q a = true) : (l.filter q).find? p = l.find? p := by
  induction l with
  | nil => rfl
  | cons a as ih =>
    by_cases hq : q a = true
    · rw [List.filter_cons_of_pos hq]
      cases hp : p a with
      | true => rw [List.find?_cons_of_pos _ hp, List.find?_cons_of_pos _ hp]
      | false =>
        have hp2 : ¬ p a = true := by simp [hp]
        rw [List.find?_cons_of_neg _ hp2, List.find?_cons_of_neg _ hp2, ih]
    · rw [List.filter_cons_of_neg (by simpa using hq)]
      have hp : ¬ p a = true := fun hpa => hq (h a hpa)
      rw [List.find?_cons_of_neg _ hp, ih]

/-- Filtering by an incompatible predicate leaves no match. -/
theorem find?_filter_of_incomp {α : Type} (l : List α) (p q : α → Bool)
    (h : ∀ a, p a = true → q a = false) : (l.filter q).find? p = none := by
  rw [List.find?_eq_none]
  intro a ha hpa
  rw [List.mem_filter] at ha
  rw [h a hpa] at ha
  exact Bool.false_ne_true ha.2

/-- Filtering by an incompatible predicate leaves no witness of any. -/
theorem any_filter_of_incomp {α : Type} (l : List α) (p q : α → Bool)
    (h : ∀ a, p a = true → q a = false) : (l.filter q).any p = false := by
  rw [List.any_eq_false]
  intro a ha hpa
  rw [List.mem_filter] at ha
  rw [h a hpa] at ha
  exact Bool.false_ne_true ha.2

/-- Filtering by a weaker predicate first does not change a filter. -/
theorem filter_filter_of_imp {α : Type} (l : List α) (p q : α → Bool)
    (h : ∀ a, p a = true → q a = true) : (l.filter q).filter p = l.filter p := by
  rw [List.filter_filter]
  apply List.filter_congr
  intro a _
  cases hpa : p a with
  | true => simp [h a hpa]
  | false => simp

/-- C1: Orthogonality of the Disclosure Filter: for a fixed raw record and
viewer passing the contact gate, the filtered namedLocation is identical at
any two granted levels; a viewer other than the owner never sees a private
named location even at address; a viewer sees an all (or
selected-including-them) named location even at planet. -/
theorem namedLocation_orthogonality (raw : LocationRecord)
    (viewer owner L1 L2 label : String) (ids : List String)
    (h1 : L1 ∈ PERMISSION_LEVELS) (h2 : L2 ∈ PERMISSION_LEVELS) :
    ((applyDisclosureFilter raw L1 viewer owner true).namedLocation
      = (applyDisclosureFilter raw L2 viewer owner true).namedLocation)
  ∧ (viewer ≠ owner →
      raw.namedLocation = some (.wrapped label .privateVis) →
      (applyDisclosureFilter raw "address" viewer owner true).namedLocation = none)
  ∧ (raw.namedLocation = some (.wrapped label .allVis) →
      (applyDisclosureFilter raw "planet" viewer owner true).namedLocation = some label)
  ∧ (raw.namedLocation = some (.wrapped label (.selected ids)) →
      ids.contains viewer = true →
      (applyDisclosureFilter raw "planet" viewer owner true).namedLocation = some label) := by
  refine ⟨rfl, ?_, ?_, ?_⟩
  · intro hne hnl
    simp [applyDisclosureFilter, filterNamedLocation, hnl, beq_iff_eq, hne]
  · intro hnl
    simp [applyDisclosureFilter, filterNamedLocation, hnl]
  · intro hnl hmem
    have hv : viewer ∈ ids := List.elem_iff.mp hmem
    simp [applyDisclosureFilter, filterNamedLocation, hnl, hv]

/-- Witness for C1 at a concrete record, viewer and level pair. -/
theorem namedLocation_orthogonality_witness :
    ("planet" : String) ∈ PERMISSION_LEVELS
  ∧ ("address" : String) ∈ PERMISSION_LEVELS
  ∧ (((applyDisclosureFilter rawAllVis "planet" "ub" "ua" true).namedLocation
        = (applyDisclosureFilter rawAllVis "address" "ub" "ua" true).namedLocation)
    ∧ (("ub" : String) ≠ "ua" →
        rawAllVis.namedLocation = some (.wrapped "Soccer Field" .privateVis) →
        (applyDisclosureFilter rawAllVis "address" "ub" "ua" true).namedLocation = none)
    ∧ (rawAllVis.namedLocation = some (.wrapped "Soccer Field" .allVis) →
        (applyDisclosureFilter rawAllVis "planet" "ub" "ua" true).namedLocation
          = some "Soccer Field")
    ∧ (rawAllVis.namedLocation = some (.wrapped "Soccer Field" (.selected ["ub"])) →
        (["ub"] : List String).contains "ub" = true →
        (applyDisclosureFilter rawAllVis "planet" "ub" "ua" true).namedLocation
          = some "Soccer Field")) :=
  ⟨by decide, by decide,
   namedLocation_orthogonality rawAllVis "ub" "ua" "planet" "address" "Soccer Field"
     ["ub"] (by decide) (by decide)⟩

/-- C3: the contact gate precedes disclosure: when the viewer is not a
contact of the owner, the query fails Forbidden, whatever grants or
records exist. -/
theorem contact_gate_precedes_disclosure (db : DB)
    (locStore : List (String × LocationRecord)) (now : Nat) (viewer owner : String)
    (h : isContact db viewer owner = false) :
    getContactLocation db locStore now viewer owner
      = .error (.forbidden "Not a contact") := by
  simp [getContactLocation, h]

/-- Witness for C3: strangers with a leftover address grant from the owner
to the viewer still get Forbidden. -/
theorem contact_gate_precedes_disclosure_witness :
    isContact dbStrangers "ub" "ua" = false
  ∧ getContactLocation dbStrangers [("ua", rawPrivate)] 0 "ub" "ua"
      = .error (.forbidden "Not a contact") :=
  ⟨by decide,
   contact_gate_precedes_disclosure dbStrangers [("ua", rawPrivate)] 0 "ub" "ua" (by decide)⟩

/-- C4: a legacy bare-string namedLocation is treated as private: absent
for every viewer other than the owner, at every granted level and whatever
the contact flag. -/
theorem legacy_named_location_safety (raw : LocationRecord)
    (label viewer owner L : String) (c : Bool) (hL : L ∈ PERMISSION_LEVELS)
    (hleg : raw.namedLocation = some (.legacy label)) (hne : viewer ≠ owner) :
    (applyDisclosureFilter raw L viewer owner c).namedLocation = none := by
  simp [applyDisclosureFilter, filterNamedLocation, hleg, beq_iff_eq, hne]

/-- Witness for C4 at the maximal address level. -/
theorem legacy_named_location_safety_witness :
    ("address" : String) ∈ PERMISSION_LEVELS
  ∧ rawLegacy.namedLocation = some (.legacy "Legacy Place")
  ∧ ("ub" : String) ≠ "ua"
  ∧ (applyDisclosureFilter rawLegacy "address" "ub" "ua" true).namedLocation = none :=
  ⟨by decide, by decide, by decide,
   legacy_named_location_safety rawLegacy "Legacy Place" "ub" "ua" "address" true
     (by decide) (by decide) (by decide)⟩

/-- A zero index into a level list means the head is the key. -/
theorem indexInLevels_zero (k l : String) (ls : List String)
    (h : indexInLevels k (l :: ls) = some 0) : l = k := by
  by_cases hk : (l == k) = true
  · exact eq_of_beq hk
  · exfalso
    simp only [indexInLevels, hk, if_false] at h
    cases hx : indexInLevels k ls with
    | none => rw [hx] at h; cases h
    | some v => rw [hx] at h; simp at h

/-- The only string of level index zero is planet. -/
theorem levelIndex_zero_planet (k : String) (h : levelIndex k = some 0) :
    k = "planet" := by
  unfold levelIndex PERMISSION_LEVELS at h
  exact (indexInLevels_zero k "planet" _ h).symm

/-- C2 counterexample: a hierarchy consisting of the literal planet key
(one of the nine level keys, identity-mapped to index 0 by the key table)
is not emptied at level planet. -/
theorem hierarchy_planet_key_not_emptied :
    (applyDisclosureFilter planetKeyRecord "planet" "ub" "ua" true).hierarchy
      = [("planet", "Earth")]
  ∧ (applyDisclosureFilter planetKeyRecord "planet" "ub" "ua" true).hierarchy ≠ [] := by
  decide

/-- C2 amended: for every hierarchy the keys output at a lower granted
level are a subset of those output at a higher one; and at planet the
filtered hierarchy is empty for every hierarchy whose keys avoid the
literal planet key, which the valid hierarchies of the data model do
(their keys exclude planet). -/
theorem hierarchy_filter_monotonicity (raw : LocationRecord) (viewer owner : String)
    (L1 L2 : String) (i1 i2 : Nat)
    (h1 : levelIndex L1 = some i1) (h2 : levelIndex L2 = some i2) (hlt : i1 < i2) :
    (∀ k ∈ ((applyDisclosureFilter raw L1 viewer owner true).hierarchy).map Prod.fst,
        k ∈ ((applyDisclosureFilter raw L2 viewer owner true).hierarchy).map Prod.fst)
  ∧ ((∀ kv ∈ raw.hierarchy, kv.fst ≠ "planet") →
      (applyDisclosureFilter raw "planet" viewer owner true).hierarchy = []) := by
  constructor
  · intro k hk
    simp only [applyDisclosureFilter] at hk ⊢
    rw [List.mem_map] at hk ⊢
    obtain ⟨kv, hkv, rfl⟩ := hk
    refine ⟨kv, ?_, rfl⟩
    rw [filterHierarchyKeys, List.mem_filter] at hkv ⊢
    refine ⟨hkv.1, ?_⟩
    have hp := hkv.2
    have hA1 : allowedIndexOf L1 = i1 := by unfold allowedIndexOf; rw [h1]; rfl
    have hA2 : allowedIndexOf L2 = i2 := by unfold allowedIndexOf; rw [h2]; rfl
    cases hx : levelIndex kv.fst with
    | none => rw [hx] at hp; exact absurd hp (by simp)
    | some i =>
      rw [hx] at hp
      have hi : i ≤ allowedIndexOf L1 := of_decide_eq_true hp
      rw [hA1] at hi
      have hi2 : i ≤ allowedIndexOf L2 := by
        rw [hA2]
        exact le_trans hi (le_of_lt hlt)
      exact decide_eq_true hi2
  · intro hvalid
    simp only [applyDisclosureFilter, filterHierarchyKeys]
    rw [List.filter_eq_nil_iff]
    intro kv hkv hp
    cases hx : levelIndex kv.fst with
    | none => rw [hx] at hp; exact absurd hp (by simp)
    | some i =>
      rw [hx] at hp
      have hA : allowedIndexOf "planet" = 0 := by decide
      rw [hA] at hp
      have hi : i ≤ 0 := of_decide_eq_true hp
      have hi0 : i = 0 := Nat.le_zero.mp hi
      subst hi0
      exact hvalid kv hkv (levelIndex_zero_planet kv.fst hx)

/-- Witness for the amended C2 at the city and address levels on a record
without the planet key. -/
theorem hierarchy_filter_monotonicity_witness :
    levelIndex "city" = some 5 ∧ levelIndex "address" = some 8 ∧ (5 : Nat) < 8
  ∧ (∀ k ∈ ((applyDisclosureFilter rawPrivate "city" "ub" "ua" true).hierarchy).map Prod.fst,
      k ∈ ((applyDisclosureFilter rawPrivate "address" "ub" "ua" true).hierarchy).map Prod.fst)
  ∧ ((∀ kv ∈ rawPrivate.hierarchy, kv.fst ≠ "planet") →
      (applyDisclosureFilter rawPrivate "planet" "ub" "ua" true).hierarchy = []) :=
  ⟨by decide, by decide, by decide,
   (hierarchy_filter_monotonicity rawPrivate "ub" "ua" "city" "address" 5 8
     (by decide) (by decide) (by decide)).1,
   (hierarchy_filter_monotonicity rawPrivate "ub" "ua" "city" "address" 5 8
     (by decide) (by decide) (by decide)).2⟩

/-- The upsert stores the new level under its key. -/
theorem permissionsUpsert_find_self (rows : List PermissionRow) (g e l : String) :
    (permissionsUpsert rows g e l).find?
        (fun r => r.granter_id == g && r.grantee_id == e)
      = some ⟨g, e, l⟩ := by
  unfold permissionsUpsert
  rw [find?_append_of_none]
  · simp [List.find?]
  · apply find?_filter_of_incomp
    intro a ha
    simp [ha]

/-- The upsert does not change the lookup of a different key. -/
theorem permissionsUpsert_find_other (rows : List PermissionRow) (g e l g2 e2 : String)
    (h : ¬(g2 = g ∧ e2 = e)) :
    (permissionsUpsert rows g e l).find?
        (fun r => r.granter_id == g2 && r.grantee_id == e2)
      = rows.find? (fun r => r.granter_id == g2 && r.grantee_id == e2) := by
  unfold permissionsUpsert
  have himp : ∀ a : PermissionRow,
      (a.granter_id == g2 && a.grantee_id == e2) = true →
      (!(a.granter_id == g && a.grantee_id == e)) = true := by
    intro a ha
    simp only [Bool.and_eq_true, beq_iff_eq] at ha
    obtain ⟨rfl, rfl⟩ := ha
    by_cases hx1 : a.granter_id = g
    · by_cases hx2 : a.grantee_id = e
      · exact absurd ⟨hx1, hx2⟩ h
      · simp [beq_iff_eq, hx2]
    · simp [beq_iff_eq, hx1]
  cases hfind : rows.find? (fun r => r.granter_id == g2 && r.grantee_id == e2) with
  | some r =>
    apply find?_append_of_some
    rw [find?_filter_of_imp _ _ _ himp]
    exact hfind
  | none =>
    rw [find?_append_of_none]
    · apply List.find?_eq_none.mpr
      intro a ha hpa
      rw [List.mem_singleton] at ha
      subst ha
      simp only [Bool.and_eq_true, beq_iff_eq] at hpa
      exact h ⟨hpa.1.symm, hpa.2.symm⟩
    · rw [find?_filter_of_imp _ _ _ himp]
      exact hfind

/-- C6: setLevel validation and boundary gating: a non-contact grantee is
rejected at the boundary with Forbidden, a level outside the nine is
rejected as invalid, and otherwise the grant is upserted so that the
subsequent lookup returns exactly the new level. -/
theorem setLevel_validation_and_gating (db : DB) (user contact level : String) :
    ((get_user_contacts db user).contains contact = false →
      update_contact_permission db user contact level
        = .error (.forbidden "Not a contact"))
  ∧ ((get_user_contacts db user).contains contact = true →
      PERMISSION_LEVELS.contains level = false →
      update_contact_permission db user contact level
        = .error (.invalidArgument "Invalid level"))
  ∧ ((get_user_contacts db user).contains contact = true →
      PERMISSION_LEVELS.contains level = true →
      update_contact_permission db user contact level
          = .ok { db with
                  permissions := permissionsUpsert db.permissions user contact level }
        ∧ get_permission_level
            { db with
              permissions := permissionsUpsert db.permissions user contact level }
            user contact = level) := by
  refine ⟨?_, ?_, ?_⟩
  · intro h
    unfold update_contact_permission
    rw [h]
    simp
  · intro h1 h2
    unfold update_contact_permission
    rw [h1, h2]
    simp
  · intro h1 h2
    constructor
    · unfold update_contact_permission set_permission_level
      rw [h1, h2]
      simp
    · unfold get_permission_level
      rw [show ({ db with
            permissions := permissionsUpsert db.permissions user contact level } : DB).permissions
          = permissionsUpsert db.permissions user contact level from rfl]
      rw [permissionsUpsert_find_self]

/-- Witness for C6 on a pair of accepted contacts holding a prior grant. -/
theorem setLevel_validation_and_gating_witness :
    (get_user_contacts dbContacts "ua").contains "ub" = true
  ∧ PERMISSION_LEVELS.contains "city" = true
  ∧ (update_contact_permission dbContacts "ua" "ub" "city"
        = .ok { dbContacts with
                permissions := permissionsUpsert dbContacts.permissions "ua" "ub" "city" }
    ∧ get_permission_level
        { dbContacts with
          permissions := permissionsUpsert dbContacts.permissions "ua" "ub" "city" }
        "ua" "ub" = "city") :=
  ⟨by decide, by decide,
   (setLevel_validation_and_gating dbContacts "ua" "ub" "city").2.2 (by decide) (by decide)⟩

/-- When no accepted edge links the pair, remove_contact fails NotFound. -/
theorem remove_contact_error_of_no_edge (db : DB) (user other : String)
    (h : hasAcceptedEdge db user other = false) :
    remove_contact db user other = .error (.notFound "Contact not found") := by
  unfold remove_contact
  have hkeep : db.contacts.filter (fun c => !(removeEdgePred user other c)) = db.contacts := by
    rw [List.filter_eq_self]
    intro a ha
    unfold hasAcceptedEdge at h
    rw [List.any_eq_false] at h
    simp [h a ha]
  rw [hkeep]
  simp

/-- C7: removeContact fails NotFound without an accepted edge; on success
the edge and both directed grants are gone: a second call fails NotFound
and both lookups are back at the planet default. -/
theorem removeContact_postcondition (db : DB) (user other : String) :
    (hasAcceptedEdge db user other = false →
      remove_contact db user other = .error (.notFound "Contact not found"))
  ∧ (∀ db2, remove_contact db user other = .ok db2 →
      remove_contact db2 user other = .error (.notFound "Contact not found")
      ∧ get_permission_level db2 user other = DEFAULT_PERMISSION_LEVEL
      ∧ get_permission_level db2 other user = DEFAULT_PERMISSION_LEVEL) := by
  constructor
  · exact remove_contact_error_of_no_edge db user other
  · intro db2 hok
    simp only [remove_contact] at hok
    split at hok
    · exact absurd hok (by simp)
    · rw [Except.ok.injEq] at hok
      subst hok
      refine ⟨?_, ?_, ?_⟩
      · apply remove_contact_error_of_no_edge
        unfold hasAcceptedEdge
        apply any_filter_of_incomp
        intro a ha
        simp [ha]
      · unfold get_permission_level
        rw [find?_filter_of_incomp]
        intro a ha
        simp only [Bool.and_eq_true, beq_iff_eq] at ha
        simp [ha.1, ha.2]
      · unfold get_permission_level
        rw [find?_filter_of_incomp]
        intro a ha
        simp only [Bool.and_eq_true, beq_iff_eq] at ha
        simp [ha.1, ha.2]

/-- Witness for C7 on an accepted pair with a stored grant. -/
theorem removeContact_postcondition_witness :
    (hasAcceptedEdge dbContacts "ua" "ub" = false →
      remove_contact dbContacts "ua" "ub" = .error (.notFound "Contact not found"))
  ∧ (∀ db2, remove_contact dbContacts "ua" "ub" = .ok db2 →
      remove_contact db2 "ua" "ub" = .error (.notFound "Contact not found")
      ∧ get_permission_level db2 "ua" "ub" = DEFAULT_PERMISSION_LEVEL
      ∧ get_permission_level db2 "ub" "ua" = DEFAULT_PERMISSION_LEVEL) :=
  removeContact_postcondition dbContacts "ua" "ub"

/-- C8: requestContact error taxonomy: NotFound for an unknown email,
InvalidOperation for a self-request, Conflict when any relationship
(accepted or pending, either direction) already links the pair, and
otherwise exactly one new pending edge requester to recipient. The status
hypothesis is the table invariant: rows only ever hold pending or
accepted. -/
theorem requestContact_error_taxonomy (db : DB) (user emailInput : String)
    (hstatus : ∀ c ∈ db.contacts, c.status = "pending" ∨ c.status = "accepted") :
    (get_user_by_email db (normalizeEmail emailInput) = none →
      send_contact_request db user emailInput = .error (.notFound "User not found"))
  ∧ (∀ t, get_user_by_email db (normalizeEmail emailInput) = some t → t.id = user →
      send_contact_request db user emailInput
        = .error (.invalidOperation "Cannot add yourself as a contact"))
  ∧ (∀ t c, get_user_by_email db (normalizeEmail emailInput) = some t → t.id ≠ user →
      relationshipBetween db user t.id = some c →
      (send_contact_request db user emailInput = .error (.conflict "Already contacts")
       ∨ send_contact_request db user emailInput
           = .error (.conflict "Request already pending")))
  ∧ (∀ t, get_user_by_email db (normalizeEmail emailInput) = some t → t.id ≠ user →
      relationshipBetween db user t.id = none →
      send_contact_request db user emailInput
        = .ok { db with
                contacts := db.contacts ++ [⟨db.nextContactId, user, t.id, "pending"⟩],
                nextContactId := db.nextContactId + 1 }) := by
  refine ⟨?_, ?_, ?_, ?_⟩
  · intro h
    simp only [send_contact_request, h]
  · intro t h hid
    simp only [send_contact_request, h]
    simp [hid]
  · intro t c h hne hrel
    unfold relationshipBetween at hrel
    have hne2 : (t.id == user) = false := by
      simp only [beq_eq_false_iff_ne, ne_eq]
      exact hne
    have hst := hstatus c (List.mem_of_find?_eq_some hrel)
    simp only [send_contact_request, h, hne2, Bool.false_eq_true, if_false, hrel]
    rcases hst with hp | ha
    · right
      simp only [hp]
      rw [show (("pending" : String) == "accepted") = false from rfl]
      simp
    · left
      simp only [ha]
      rw [show (("accepted" : String) == "accepted") = true from rfl]
      simp
  · intro t h hne hrel
    unfold relationshipBetween at hrel
    have hne2 : (t.id == user) = false := by
      simp only [beq_eq_false_iff_ne, ne_eq]
      exact hne
    simp only [send_contact_request, h, hne2, Bool.false_eq_true, if_false, hrel]

/-- Witness for C8: with the pair already accepted contacts, a repeat
request conflicts. -/
theorem requestContact_error_taxonomy_witness :
    (∀ c ∈ dbContacts.contacts, c.status = "pending" ∨ c.status = "accepted")
  ∧ (send_contact_request dbContacts "ua" "bob@test.com"
        = .error (.conflict "Already contacts")
     ∨ send_contact_request dbContacts "ua" "bob@test.com"
        = .error (.conflict "Request already pending")) :=
  ⟨by decide,
   (requestContact_error_taxonomy dbContacts "ua" "bob@test.com" (by decide)).2.2.1
     bobU ⟨1, "ua", "ub", "accepted"⟩ (by decide) (by decide) (by decide)⟩

/-- C9: symmetric contact, asymmetric permission: after a successful
request from A resolving to B and a successful accept by B of that edge,
each is a contact of the other; a subsequent successful city grant from A
to B leaves the level B grants A untouched. -/
theorem symmetric_contact_asymmetric_permission
    (db db1 db2 db3 : DB) (A B emailB : String) (tB : UserRow)
    (hne : A ≠ B)
    (hmail : get_user_by_email db (normalizeEmail emailB) = some tB)
    (hid : tB.id = B)
    (h1 : send_contact_request db A emailB = .ok db1)
    (h2 : accept_contact_request db1 B db.nextContactId = .ok db2)
    (h3 : update_contact_permission db2 A B "city" = .ok db3) :
    isContact db2 A B = true
  ∧ isContact db2 B A = true
  ∧ get_permission_level db3 B A = get_permission_level db2 B A := by
  have hdb1 : db1 = { db with
      contacts := db.contacts ++ [⟨db.nextContactId, A, B, "pending"⟩],
      nextContactId := db.nextContactId + 1 } := by
    simp only [send_contact_request, hmail, hid] at h1
    split at h1
    · exact absurd h1 (by simp)
    · split at h1
      · split at h1
        · exact absurd h1 (by simp)
        · split at h1
          · exact absurd h1 (by simp)
          · rw [Except.ok.injEq] at h1
            exact h1.symm
      · rw [Except.ok.injEq] at h1
        exact h1.symm
  have hdb2 : db2 = { db with
      contacts := (db.contacts ++ [(⟨db.nextContactId, A, B, "pending"⟩ : ContactRow)]).map
        (fun c : ContactRow =>
          if c.id == db.nextContactId then { c with status := "accepted" } else c),
      nextContactId := db.nextContactId + 1 } := by
    subst hdb1
    simp only [accept_contact_request] at h2
    split at h2
    · exact absurd h2 (by simp)
    · rw [Except.ok.injEq] at h2
      exact h2.symm
  have hcontacts2 : db2.contacts
      = db.contacts.map
          (fun c : ContactRow =>
            if c.id == db.nextContactId then { c with status := "accepted" } else c)
        ++ [⟨db.nextContactId, A, B, "accepted"⟩] := by
    rw [hdb2]
    rw [List.map_append]
    simp
  have hABmem : B ∈ get_user_contacts db2 A := by
    unfold get_user_contacts
    rw [List.mem_map]
    refine ⟨⟨db.nextContactId, A, B, "accepted"⟩, ?_, ?_⟩
    · rw [List.mem_filter]
      constructor
      · rw [hcontacts2]
        exact List.mem_append_right _ (by simp)
      · simp
    · simp
  have hBAmem : A ∈ get_user_contacts db2 B := by
    unfold get_user_contacts
    rw [List.mem_map]
    refine ⟨⟨db.nextContactId, A, B, "accepted"⟩, ?_, ?_⟩
    · rw [List.mem_filter]
      constructor
      · rw [hcontacts2]
        exact List.mem_append_right _ (by simp)
      · simp
    · have hAB : (A == B) = false := by
        simp only [beq_eq_false_iff_ne, ne_eq]
        exact hne
      simp [hAB]
  refine ⟨?_, ?_, ?_⟩
  · unfold isContact
    exact List.elem_iff.mpr hABmem
  · unfold isContact
    exact List.elem_iff.mpr hBAmem
  · have hdb3 : db3 = { db2 with
        permissions := permissionsUpsert db2.permissions A B "city" } := by
      simp only [update_contact_permission, set_permission_level] at h3
      split at h3
      · exact absurd h3 (by simp)
      · split at h3
        · exact absurd h3 (by simp)
        · split at h3
          · rename_i d heq
            rw [Except.ok.injEq] at h3
            subst h3
            split at heq
            · rw [Except.ok.injEq] at heq
              exact heq.symm
            · exact absurd heq (by simp)
          · exact absurd h3 (by simp)
    rw [hdb3]
    unfold get_permission_level
    rw [show ({ db2 with
          permissions := permissionsUpsert db2.permissions A B "city" } : DB).permissions
        = permissionsUpsert db2.permissions A B "city" from rfl]
    rw [permissionsUpsert_find_other db2.permissions A B "city" B A
        (fun hx => hne hx.2)]

/-- Witness for C9 on the concrete request-accept-grant trace. -/
theorem symmetric_contact_asymmetric_permission_witness :
    ("ua" : String) ≠ "ub"
  ∧ send_contact_request dbPair "ua" "bob@test.com" = .ok dbPair1
  ∧ accept_contact_request dbPair1 "ub" dbPair.nextContactId = .ok dbPair2
  ∧ update_contact_permission dbPair2 "ua" "ub" "city" = .ok dbPair3
  ∧ (isContact dbPair2 "ua" "ub" = true
    ∧ isContact dbPair2 "ub" "ua" = true
    ∧ get_permission_level dbPair3 "ub" "ua" = get_permission_level dbPair2 "ub" "ua") :=
  ⟨by decide, by rfl, by rfl, by rfl,
   symmetric_contact_asymmetric_permission dbPair dbPair1 dbPair2 dbPair3
     "ua" "ub" "bob@test.com" bobU (by decide) (by decide) (by decide)
     (by rfl) (by rfl) (by rfl)⟩

/-- Rows to a different recipient are untouched by the encrypted upsert. -/
theorem filter_encryptedUpsert_other (rows : List EncryptedLocationRow)
    (fromUser cid blob c : String) (hne : cid ≠ c) :
    (encryptedUpsert rows fromUser cid blob).filter
        (fun r => r.from_user_id == fromUser && r.to_user_id == c)
      = rows.filter (fun r => r.from_user_id == fromUser && r.to_user_id == c) := by
  unfold encryptedUpsert
  rw [List.filter_append]
  have h1 : (([⟨fromUser, cid, blob⟩] : List EncryptedLocationRow).filter
      (fun r => r.from_user_id == fromUser && r.to_user_id == c)) = [] := by
    simp [beq_iff_eq, hne]
  rw [h1, List.append_nil]
  apply filter_filter_of_imp
  intro a ha
  simp only [Bool.and_eq_true, beq_iff_eq] at ha
  simp [beq_iff_eq, ha.1, ha.2, Ne.symm hne]

/-- The publish loop never touches rows to a recipient outside the contact
list. -/
theorem publishEnc_preserves_noncontact (user c : String) (contact_ids : List String)
    (hc : contact_ids.contains c = false) :
    ∀ (locs : List EncLocEntry) (rows : List EncryptedLocationRow),
      (locs.foldl (publishEncStep user contact_ids) rows).filter
          (fun r => r.from_user_id == user && r.to_user_id == c)
        = rows.filter (fun r => r.from_user_id == user && r.to_user_id == c) := by
  intro locs
  induction locs with
  | nil => intro rows; rfl
  | cons e es ih =>
    intro rows
    rw [List.foldl_cons, ih]
    obtain ⟨cid?, b?⟩ := e
    cases cid? with
    | none => rfl
    | some cid =>
      cases b? with
      | none => rfl
      | some b =>
        simp only [publishEncStep]
        by_cases hempty : (cid.isEmpty || b.isEmpty) = true
        · rw [if_pos hempty]
        · rw [if_neg hempty]
          by_cases hmem : contact_ids.contains cid = true
          · rw [if_pos hmem]
            apply filter_encryptedUpsert_other
            intro hcc
            subst hcc
            rw [hmem] at hc
            cases hc
          · rw [if_neg hmem]

/-- The publish loop never touches rows to a recipient no entry validly
targets. -/
theorem publishEnc_preserves_untargeted (user c : String) (contact_ids : List String) :
    ∀ (locs : List EncLocEntry) (rows : List EncryptedLocationRow),
      locs.all (fun e => !(entryTargets c e)) = true →
      (locs.foldl (publishEncStep user contact_ids) rows).filter
          (fun r => r.from_user_id == user && r.to_user_id == c)
        = rows.filter (fun r => r.from_user_id == user && r.to_user_id == c) := by
  intro locs
  induction locs with
  | nil => intro rows _; rfl
  | cons e es ih =>
    intro rows hall
    rw [List.all_cons, Bool.and_eq_true] at hall
    rw [List.foldl_cons, ih _ hall.2]
    have he := hall.1
    obtain ⟨cid?, b?⟩ := e
    cases cid? with
    | none => rfl
    | some cid =>
      cases b? with
      | none => rfl
      | some b =>
        simp only [publishEncStep]
        by_cases hempty : (cid.isEmpty || b.isEmpty) = true
        · rw [if_pos hempty]
        · rw [if_neg hempty]
          by_cases hmem : contact_ids.contains cid = true
          · rw [if_pos hmem]
            apply filter_encryptedUpsert_other
            intro hcc
            subst hcc
            have hef : (cid.isEmpty || b.isEmpty) = false := by
              rw [Bool.not_eq_true] at hempty
              exact hempty
            rw [Bool.or_eq_false_iff] at hef
            rw [Bool.not_eq_true'] at he
            simp only [entryTargets, hef.1, hef.2] at he
            simp at he
          · rw [if_neg hmem]

/-- C10: publishing encrypted locations always reports success with count
the raw number of submitted entries, while skipped entries store nothing:
rows to a recipient outside the contact list, and rows to a recipient no
submitted entry validly targets, are unchanged. -/
theorem publishEncrypted_swallows_and_counts (db : DB) (user : String)
    (locs : List EncLocEntry) :
    (publish_encrypted_locations db user locs).snd = ⟨true, locs.length⟩
  ∧ (∀ c, (get_user_contacts db user).contains c = false →
      encRowsFor (publish_encrypted_locations db user locs).fst user c
        = encRowsFor db user c)
  ∧ (∀ c, locs.all (fun e => !(entryTargets c e)) = true →
      encRowsFor (publish_encrypted_locations db user locs).fst user c
        = encRowsFor db user c) := by
  refine ⟨rfl, ?_, ?_⟩
  · intro c hc
    unfold encRowsFor publish_encrypted_locations
    exact publishEnc_preserves_noncontact user c _ hc locs db.encrypted_locations
  · intro c hall
    unfold encRowsFor publish_encrypted_locations
    exact publishEnc_preserves_untargeted user c _ locs db.encrypted_locations hall

/-- Witness for C10: four entries, one valid; the response still counts
four, and nothing is stored for the non-contact recipient. -/
theorem publishEncrypted_swallows_and_counts_witness :
    (publish_encrypted_locations dbContacts "ua" encLocsW).snd = ⟨true, 4⟩
  ∧ (get_user_contacts dbContacts "ua").contains "zz" = false
  ∧ encRowsFor (publish_encrypted_locations dbContacts "ua" encLocsW).fst "ua" "zz"
      = encRowsFor dbContacts "ua" "zz" :=
  ⟨(publishEncrypted_swallows_and_counts dbContacts "ua" encLocsW).1,
   by decide,
   (publishEncrypted_swallows_and_counts dbContacts "ua" encLocsW).2.1 "zz" (by decide)⟩

/-- A successful registration does not touch the permissions table. -/
theorem register_user_ok_permissions (db : DB) (u e n : String) (db2 : DB)
    (h : register_user db u e n = .ok db2) : db2.permissions = db.permissions := by
  simp only [register_user] at h
  split at h
  · exact absurd h (by simp)
  · split at h
    · exact absurd h (by simp)
    · rw [Except.ok.injEq] at h
      subst h
      rfl

/-- A successful contact request does not touch the permissions table. -/
theorem send_contact_request_ok_permissions (db : DB) (u e : String) (db2 : DB)
    (h : send_contact_request db u e = .ok db2) : db2.permissions = db.permissions := by
  simp only [send_contact_request] at h
  split at h
  · exact absurd h (by simp)
  · split at h
    · exact absurd h (by simp)
    · split at h
      · split at h
        · exact absurd h (by simp)
        · split at h
          · exact absurd h (by simp)
          · rw [Except.ok.injEq] at h
            subst h
            rfl
      · rw [Except.ok.injEq] at h
        subst h
        rfl

/-- A successful accept does not touch the permissions table. -/
theorem accept_contact_request_ok_permissions (db : DB) (u : String) (i : Nat) (db2 : DB)
    (h : accept_contact_request db u i = .ok db2) : db2.permissions = db.permissions := by
  simp only [accept_contact_request] at h
  split at h
  · exact absurd h (by simp)
  · rw [Except.ok.injEq] at h
    subst h
    rfl

/-- A successful decline does not touch the permissions table. -/
theorem decline_contact_request_ok_permissions (db : DB) (u : String) (i : Nat) (db2 : DB)
    (h : decline_contact_request db u i = .ok db2) : db2.permissions = db.permissions := by
  simp only [decline_contact_request] at h
  split at h
  · exact absurd h (by simp)
  · rw [Except.ok.injEq] at h
    subst h
    rfl

/-- A successful cancel does not touch the permissions table. -/
theorem cancel_contact_request_ok_permissions (db : DB) (u : String) (i : Nat) (db2 : DB)
    (h : cancel_contact_request db u i = .ok db2) : db2.permissions = db.permissions := by
  simp only [cancel_contact_request] at h
  split at h
  · exact absurd h (by simp)
  · rw [Except.ok.injEq] at h
    subst h
    rfl

/-- A successful removal only deletes permission rows, so a key that was
absent stays absent. -/
theorem remove_contact_ok_permKeyAbsent (db : DB) (u c x y : String) (db2 : DB)
    (h : remove_contact db u c = .ok db2) (habs : permKeyAbsent db x y = true) :
    permKeyAbsent db2 x y = true := by
  simp only [remove_contact] at h
  split at h
  · exact absurd h (by simp)
  · rw [Except.ok.injEq] at h
    subst h
    unfold permKeyAbsent at habs ⊢
    rw [Bool.not_eq_true'] at habs ⊢
    rw [List.any_eq_false] at habs ⊢
    intro a ha
    exact habs a (List.mem_filter.mp ha).1

/-- A successful permission update for a different ordered pair leaves an
absent key absent. -/
theorem update_permission_ok_permKeyAbsent (db : DB) (u c l x y : String) (db2 : DB)
    (h : update_contact_permission db u c l = .ok db2)
    (hne : ¬(u = x ∧ c = y)) (habs : permKeyAbsent db x y = true) :
    permKeyAbsent db2 x y = true := by
  simp only [update_contact_permission, set_permission_level] at h
  split at h
  · exact absurd h (by simp)
  · split at h
    · exact absurd h (by simp)
    · split at h
      · rename_i d heq
        rw [Except.ok.injEq] at h
        subst h
        split at heq
        · rw [Except.ok.injEq] at heq
          subst heq
          unfold permKeyAbsent at habs ⊢
          rw [Bool.not_eq_true'] at habs ⊢
          rw [List.any_eq_false] at habs ⊢
          intro a ha
          rw [show ({ db with
                permissions := permissionsUpsert db.permissions u c l } : DB).permissions
              = permissionsUpsert db.permissions u c l from rfl] at ha
          unfold permissionsUpsert at ha
          rw [List.mem_append] at ha
          rcases ha with haf | hax
          · exact habs a (List.mem_filter.mp haf).1
          · rw [List.mem_singleton] at hax
            subst hax
            unfold permKeyPred
            simp only [Bool.and_eq_true, beq_iff_eq]
            intro hcon
            exact hne ⟨hcon.1, hcon.2⟩
        · exact absurd heq (by simp)
      · exact absurd h (by simp)

/-- Absence of a permission key only depends on the permissions table. -/
theorem permKeyAbsent_congr (db db2 : DB) (x y : String)
    (hp : db2.permissions = db.permissions) :
    permKeyAbsent db2 x y = permKeyAbsent db x y := by
  unfold permKeyAbsent
  rw [hp]

/-- Running any history without a successful setLevel for the ordered pair
(x, y) keeps the pair without a stored grant. -/
theorem permKeyAbsent_preserved (x y : String) :
    ∀ (ops : List Op) (db : DB), permKeyAbsent db x y = true →
      anySuccessfulSetLevel x y db ops = false →
      permKeyAbsent (runOps db ops) x y = true := by
  intro ops
  induction ops with
  | nil =>
    intro db h _
    exact h
  | cons op rest ih =>
    intro db h hno
    simp only [anySuccessfulSetLevel, Bool.or_eq_false_iff] at hno
    obtain ⟨h1, h2⟩ := hno
    rw [runOps, List.foldl_cons]
    apply ih (applyOp db op) ?_ h2
    cases op with
    | register u e n =>
      have hp : (applyOp db (.register u e n)).permissions = db.permissions := by
        simp only [applyOp]
        cases hr : register_user db u e n with
        | ok d =>
          simp only [exceptToDB]
          exact register_user_ok_permissions db u e n d hr
        | error er => rfl
      rw [permKeyAbsent_congr db _ x y hp]
      exact h
    | requestContact u e =>
      have hp : (applyOp db (.requestContact u e)).permissions = db.permissions := by
        simp only [applyOp]
        cases hr : send_contact_request db u e with
        | ok d =>
          simp only [exceptToDB]
          exact send_contact_request_ok_permissions db u e d hr
        | error er => rfl
      rw [permKeyAbsent_congr db _ x y hp]
      exact h
    | acceptRequest u i =>
      have hp : (applyOp db (.acceptRequest u i)).permissions = db.permissions := by
        simp only [applyOp]
        cases hr : accept_contact_request db u i with
        | ok d =>
          simp only [exceptToDB]
          exact accept_contact_request_ok_permissions db u i d hr
        | error er => rfl
      rw [permKeyAbsent_congr db _ x y hp]
      exact h
    | declineRequest u i =>
      have hp : (applyOp db (.declineRequest u i)).permissions = db.permissions := by
        simp only [applyOp]
        cases hr : decline_contact_request db u i with
        | ok d =>
          simp only [exceptToDB]
          exact decline_contact_request_ok_permissions db u i d hr
        | error er => rfl
      rw [permKeyAbsent_congr db _ x y hp]
      exact h
    | cancelRequest u i =>
      have hp : (applyOp db (.cancelRequest u i)).permissions = db.permissions := by
        simp only [applyOp]
        cases hr : cancel_contact_request db u i with
        | ok d =>
          simp only [exceptToDB]
          exact cancel_contact_request_ok_permissions db u i d hr
        | error er => rfl
      rw [permKeyAbsent_congr db _ x y hp]
      exact h
    | publishEncrypted u locs =>
      have hp : (applyOp db (.publishEncrypted u locs)).permissions = db.permissions := rfl
      rw [permKeyAbsent_congr db _ x y hp]
      exact h
    | removeContact u c =>
      simp only [applyOp]
      cases hr : remove_contact db u c with
      | ok d =>
        simp only [exceptToDB]
        exact remove_contact_ok_permKeyAbsent db u c x y d hr h
      | error er =>
        simp only [exceptToDB]
        exact h
    | setLevel u c l =>
      simp only [applyOp]
      cases hr : update_contact_permission db u c l with
      | error er =>
        simp only [exceptToDB]
        exact h
      | ok d =>
        simp only [exceptToDB]
        by_cases hpair : u = x ∧ c = y
        · exfalso
          obtain ⟨rfl, rfl⟩ := hpair
          simp only [successfulSetLevelFor] at h1
          rw [hr] at h1
          simp [isOkB] at h1
        · exact update_permission_ok_permKeyAbsent db u c l x y d hr hpair h

/-- C5: the default permission level: after any history of calls from the
fresh state in which no setLevel for the ordered pair (x, y) ever succeeds
(covering pairs never contacts and pairs whose grants died with the
relationship), the lookup answers the planet default; the lookup itself is
a total function and never fails. -/
theorem getLevel_default_without_setLevel (ops : List Op) (x y : String)
    (h : anySuccessfulSetLevel x y emptyDB ops = false) :
    get_permission_level (runOps emptyDB ops) x y = DEFAULT_PERMISSION_LEVEL := by
  have habs := permKeyAbsent_preserved x y ops emptyDB rfl h
  unfold get_permission_level
  have hfind : (runOps emptyDB ops).permissions.find?
      (fun r => r.granter_id == x && r.grantee_id == y) = none := by
    rw [List.find?_eq_none]
    unfold permKeyAbsent at habs
    rw [Bool.not_eq_true'] at habs
    rw [List.any_eq_false] at habs
    intro a ha hpa
    exact habs a ha hpa
  rw [hfind]

/-- Witness for C5: a history that registers both users, makes them
contacts and grants alice to bob; the reverse pair stays at planet. -/
theorem getLevel_default_without_setLevel_witness :
    anySuccessfulSetLevel "ub" "ua" emptyDB traceOps = false
  ∧ get_permission_level (runOps emptyDB traceOps) "ub" "ua"
      = DEFAULT_PERMISSION_LEVEL :=
  ⟨by rfl, getLevel_default_without_setLevel traceOps "ub" "ua" (by rfl)⟩

end Whereish
